import Mathlib

/-!
Verification of the VideoSync session-coordination service.

Shallow embedding of the Go sources:
the edge streaming server (global `handleClientMessage`, `broadcastState`,
`handleWebSocket`, `writePump`), the control node registry
(`getLeastLoadedServer`, `cleanupInactiveServers`, `registerStreamingServer`,
`handleHeartbeat`), and the control-plane session service
(`createSession`, `validateSession`, the WebSocket connect handler).

Go float64 fields are modelled with rationals; machine integers
(Go int / int64 millisecond and second timestamps) are modelled with Int,
well within overflow range for the values the program handles.
The Redis key-value store is modelled explicitly: the per-session state key
as an `Option KVEntry` (None models an absent key, i.e. a redis.Nil read),
and the flat creation-time store as an association list of written keys.
-/

namespace VideoSync

/-- The `RedisState` struct of the streaming server: the playback snapshot
persisted under `session:<id>:state` and carried in `stateUpdate` frames.
Go float64 fields `currentTime` and `playbackRate` are modelled as rationals;
`timestamp` is int64 milliseconds since epoch. -/
structure RedisState where
  paused : Bool
  currentTime : ℚ
  playbackRate : ℚ
  timestamp : Int
deriving DecidableEq, Repr

/-- The `VideoManifest` struct returned for `videoMetadata` frames. -/
structure VideoManifest where
  chunkDuration : Int
  chunkCount : Int
  videoDuration : ℚ
  videoFileType : String
deriving DecidableEq, Repr

/-- The constant manifest the handler answers with
(`ChunkDuration: 5, ChunkCount: 10, VideoDuration: 117, VideoFileType: "mp4"`). -/
def defaultVideoManifest : VideoManifest :=
  { chunkDuration := 5, chunkCount := 10, videoDuration := 117, videoFileType := "mp4" }

/-- Outbound WebSocket frames produced by the edge node.  A `stateUpdate`
frame wraps a playback state and the `servertime` stamp added at send time. -/
inductive Frame where
  | stateUpdate (state : RedisState) (servertime : Int)
  | videoMetadata (m : VideoManifest)
  | heartbeatAck
deriving DecidableEq, Repr

/-- A value stored under `session:<id>:state` together with its expiry
instant: `SetEX key value REDIS_MSG_EXPIRY` writes the value and sets the
expiry to the write instant plus the TTL. -/
structure KVEntry where
  state : RedisState
  expiresAt : Int
deriving DecidableEq, Repr

/-- `REDIS_MSG_EXPIRY = 24 * time.Hour`, in milliseconds to match the
millisecond timestamps used throughout. -/
def redisMsgExpiry : Int := 24 * 60 * 60 * 1000

/-- Inbound client frames after JSON decoding, as seen by
`handleClientMessage`.  The decoded struct has a `type` discriminator and a
raw `state`; a `stateUpdate` whose state fails to unmarshal into `RedisState`
is modelled as `stateUpdate none`.  A message that fails JSON decoding
altogether is `malformed`; a recognized JSON object with an unknown type
string falls through the switch and is `unknown`. -/
inductive InMsg where
  | stateUpdate (state : Option RedisState)
  | videoMetadata
  | heartbeat
  | malformed
  | unknown (t : String)
deriving DecidableEq, Repr

/-- The complete effect of one `handleClientMessage` call:
the outbound queue of the calling client after the call, the per-session
state key after the call, the payloads published on the
`session-updates:<sessionId>` channel, and the frames written directly on
the socket from the reader (bypassing the queue and the writer). -/
structure MsgEffect where
  queue : List Frame
  store : Option KVEntry
  published : List RedisState
  direct : List Frame
deriving DecidableEq, Repr

/-- `make(chan []byte, 256)` in `handleWebSocket`: the outbound queue
capacity of every client connection. -/
def sendQueueCapacity : Nat := 256

/-- The non-blocking `select { case client.send <- payload; default: drop }`
used for broadcast enqueue: append when the bounded queue has room,
otherwise drop the new frame and leave the queue unchanged. -/
def trySend (q : List Frame) (f : Frame) : List Frame :=
  if q.length < sendQueueCapacity then q ++ [f] else q

/-- `handleClientMessage` of the edge streaming server.  Inputs: the isHost
flag of the calling client, its current outbound queue, the current value of
the `session:<id>:state` key (`none` models redis.Nil), the current instant
(for the SetEX expiry), and the decoded message.

The `stateUpdate` case for a host reads the persisted state, compares
timestamps, and on a strictly newer message timestamp writes the message
state back with `SetEX _ _ REDIS_MSG_EXPIRY` and publishes it; every other
path leaves the store untouched and publishes nothing.  An unreadable
persisted value or an unreadable message state returns early.  The
`videoMetadata` case enqueues the manifest on the calling client using the
plain blocking send of the source (modelled as an append); the `heartbeat`
case answers with `conn.WriteJSON` directly on the socket. -/
def handleClientMessage (isHost : Bool) (q : List Frame) (store : Option KVEntry)
    (now : Int) (m : InMsg) : MsgEffect :=
  match m with
  | .stateUpdate st =>
      if isHost then
        match store, st with
        | some e, some inc =>
            if e.state.timestamp < inc.timestamp then
              { queue := q, store := some { state := inc, expiresAt := now + redisMsgExpiry },
                published := [inc], direct := [] }
            else
              { queue := q, store := some e, published := [], direct := [] }
        | _, _ => { queue := q, store := store, published := [], direct := [] }
      else
        { queue := q, store := store, published := [], direct := [] }
  | .videoMetadata =>
      { queue := q ++ [Frame.videoMetadata defaultVideoManifest], store := store,
        published := [], direct := [] }
  | .heartbeat =>
      { queue := q, store := store, published := [], direct := [Frame.heartbeatAck] }
  | .malformed => { queue := q, store := store, published := [], direct := [] }
  | .unknown _ => { queue := q, store := store, published := [], direct := [] }

/-- The store transition of one host `stateUpdate` frame: the store
component of `handleClientMessage` for a host client. -/
def hostStep (now : Int) (store : Option KVEntry) (inc : RedisState) : Option KVEntry :=
  (handleClientMessage true [] store now (.stateUpdate (some inc))).store

/-- Folding a sequence of host `stateUpdate` frames over the store. -/
def applyUpdates (now : Int) (store : Option KVEntry) (ups : List RedisState) :
    Option KVEntry :=
  ups.foldl (hostStep now) store

/-- The `ClientConnection` struct of the edge streaming server, as held in
the per-session membership slice.  `connLive` models `conn != nil` (and the
client pointer itself being non-nil); `send` is the content of the bounded
outbound queue, oldest frame first. -/
structure ClientConn where
  connLive : Bool
  sessionID : String
  isHost : Bool
  send : List Frame
deriving DecidableEq, Repr

/-- One inner pass of `broadcastState`: try-send the payload onto the queue
of every live client of the membership snapshot, skipping nil clients and
nil connections. -/
def enqueueAll (f : Frame) (cs : List ClientConn) : List ClientConn :=
  cs.map fun c => if c.connLive then { c with send := trySend c.send f } else c

/-- The number of live entries of the membership snapshot: these are exactly
the outer-loop iterations of `broadcastState` that reach the inner loop. -/
def liveCount (cs : List ClientConn) : Nat :=
  (cs.filter fun c => c.connLive).length

/-- `broadcastState` of the edge streaming server, acting on the membership
snapshot copied under the session mutex.  The source iterates the snapshot
in a NESTED loop: the outer loop skips dead entries, marshals the payload,
and then the inner loop try-sends the payload to every live client of the
snapshot.  The net effect is `liveCount cs` inner passes of `enqueueAll`.
The source stamps a fresh `servertime` on each outer iteration; the frames
of the successive passes are modelled with the single stamp `servertime`,
which queue contents aside from the stamp, lengths, and drop behaviour do
not depend on. -/
def broadcastState (cs : List ClientConn) (state : RedisState) (servertime : Int) :
    List ClientConn :=
  (enqueueAll (Frame.stateUpdate state servertime))^[liveCount cs] cs

/-- The `StreamingServer` descriptor of the control node registry.
`capacity` and `currentLoad` are Go ints, `lastPing` Unix seconds. -/
structure StreamingServer where
  id : String
  url : String
  capacity : Int
  currentLoad : Int
  status : String
  lastPing : Int
deriving DecidableEq, Repr

/-- `float64(server.CurrentLoad) / float64(server.Capacity)`, modelled as an
exact rational.  Exact for every nonzero capacity the program compares at
(the comparisons below never hinge on float64 rounding at the magnitudes of
connection counts and capacities). -/
def loadRatio (s : StreamingServer) : ℚ :=
  (s.currentLoad : ℚ) / (s.capacity : ℚ)

/-- The guard `load < lowestLoad` of `getLeastLoadedServer`, with the IEEE
corner of a zero capacity made explicit: in Go a zero capacity gives NaN or
plus infinity for a non-negative load (never below the bound) and minus
infinity for a negative load (always below any finite bound). -/
def loadBelow (s : StreamingServer) (bound : ℚ) : Bool :=
  if s.capacity = 0 then decide (s.currentLoad < 0) else decide (loadRatio s < bound)

/-- The loop of `getLeastLoadedServer`: walk the registry carrying the best
server so far and `lowestLoad`; a server that is `active` and strictly below
the current bound becomes the new best and its ratio the new bound. -/
def selectGo : List StreamingServer → Option StreamingServer → ℚ → Option StreamingServer
  | [], best, _ => best
  | s :: rest, best, lowest =>
      if s.status = "active" ∧ loadBelow s lowest then
        selectGo rest (some s) (loadRatio s)
      else
        selectGo rest best lowest

/-- `getLeastLoadedServer` of the control node: `lowestLoad` starts at 1.0
and `bestServer` at nil; the registry map is modelled as a list in some
iteration order. -/
def getLeastLoadedServer (servers : List StreamingServer) : Option StreamingServer :=
  selectGo servers none 1

/-- One sweep of `cleanupInactiveServers` at instant `now` (Unix seconds):
delete every registry entry with `now - lastPing > 60`, keeping exactly the
entries with `now - lastPing ≤ 60`. -/
def cleanupInactiveServers (now : Int) (servers : List StreamingServer) :
    List StreamingServer :=
  servers.filter fun s => decide (now - s.lastPing ≤ 60)

/-- The host-token check of the control node `validateSession` handler:
`isHost` starts false and becomes true only when a non-empty token was
supplied, the stored token was readable (`none` models a redis Get error or
absent key), and the two strings are equal byte for byte. -/
def validateHostCheck (stored : Option String) (supplied : String) : Bool :=
  if supplied = "" then false
  else
    match stored with
    | none => false
    | some t => t = supplied

/-- `unicode.IsSpace` restricted to the ASCII whitespace characters
(space, tab, newline, vertical tab, form feed, carriage return); the
non-ASCII code points Go additionally treats as space (U+0085, U+00A0) do
not occur in the tokens at play. -/
def goIsSpace (c : Char) : Bool :=
  c = ' ' || c = '\t' || c = '\n' || c = Char.ofNat 11 || c = Char.ofNat 12 || c = '\r'

/-- `strings.TrimSpace`: drop leading and trailing whitespace. -/
def trimSpace (s : String) : String :=
  String.mk (((s.toList.dropWhile goIsSpace).reverse.dropWhile goIsSpace).reverse)

/-- The host-token check of the main server WebSocket connect handler
(`handleWebSocket`): same shape as the validate endpoint, but both tokens
are passed through `strings.TrimSpace` before the comparison. -/
def wsIsHost (stored : Option String) (supplied : String) : Bool :=
  if supplied = "" then false
  else
    match stored with
    | none => false
    | some t => trimSpace t = trimSpace supplied

/-- The URL normalization `validateSession` applies to the selected server:
prefix `http://` unless the URL already starts with `http`
(`strings.HasPrefix`), then trim one trailing slash (`strings.TrimSuffix`),
both modelled on the character list. -/
def normalizeServerURL (u : String) : String :=
  let u₁ := if "http".toList.isPrefixOf u.toList then u else "http://" ++ u
  if u₁.toList.getLast? = some '/' then String.mk u₁.toList.dropLast else u₁

/-- Outcomes of the control node `validateSession` handler. -/
inductive ValidateResult where
  | invalidSession
  | noServers
  | ok (isHost : Bool) (streamingUrl : String)
deriving DecidableEq, Repr

/-- `validateSession` of the control node (part of the session service):
check the session key exists, run the host-token check, then pick a
streaming server with `getLeastLoadedServer` ON THE REGISTRY AS IT IS AT
VALIDATION TIME and return its normalized URL; 503 when no server is
selected.  Redis errors on the existence check are not modelled (the read
either finds the key or does not). -/
def validateSession (sessionExists : Bool) (stored : Option String)
    (supplied : String) (registry : List StreamingServer) : ValidateResult :=
  if sessionExists then
    match getLeastLoadedServer registry with
    | none => ValidateResult.noServers
    | some server => ValidateResult.ok (validateHostCheck stored supplied)
        (normalizeServerURL server.url)
  else
    ValidateResult.invalidSession

/-- The key-value store at session-creation time, modelled as the list of
written (key, value) pairs, most recent first. -/
def Store : Type := List (String × String)

/-- `SetEX key value ttl` viewed on the key set: record the write. -/
def setEX (store : Store) (k v : String) : Store := (k, v) :: store

/-- Does the store hold a key. -/
def hasKey (store : Store) (key : String) : Bool :=
  store.any fun kv => kv.1 = key

/-- Error responses of the main server `createSession` handler. -/
inductive CreateErr where
  | sessionCreationFailed
  | hostRegistrationFailed
deriving DecidableEq, Repr

/-- `createSession` of the main server: two sequential `SetEX` writes, the
session record under `session:<key>` then the host token under
`session:<key>:host`, each aborting with its own error response when the
backing store write fails (`fail₁`, `fail₂` inject those failures).  There
is no transaction and no rollback: a failing second write returns
`host_registration_failed` with the first write already in the store. -/
def createSessionMain (sessionKey hostToken stateJson : String)
    (fail₁ fail₂ : Bool) (store : Store) : Store × Option CreateErr :=
  if fail₁ then (store, some CreateErr.sessionCreationFailed)
  else
    let store₁ := setEX store ("session:" ++ sessionKey) stateJson
    if fail₂ then (store₁, some CreateErr.hostRegistrationFailed)
    else (setEX store₁ ("session:" ++ sessionKey ++ ":host") hostToken, none)

/-- The 200 body of the control node `createSession` handler: only the
session key and the host token are returned; the response carries no
streaming URL and records no edge-node assignment. -/
structure ControlCreateResp where
  sessionKey : String
  hostToken : String
deriving DecidableEq, Repr

/-- `createSession` of the control node: three sequential `SetEX` writes
(session record `"active"`, host token, initial state), each aborting with
a 500 on failure, then the two-field response. -/
def createSessionControl (sessionKey hostToken stateJson : String)
    (fail₁ fail₂ fail₃ : Bool) (store : Store) : Store × Option ControlCreateResp :=
  if fail₁ then (store, none)
  else
    let store₁ := setEX store ("session:" ++ sessionKey) "active"
    if fail₂ then (store₁, none)
    else
      let store₂ := setEX store₁ ("session:" ++ sessionKey ++ ":host") hostToken
      if fail₃ then (store₂, none)
      else (setEX store₂ ("session:" ++ sessionKey ++ ":state") stateJson,
            some { sessionKey := sessionKey, hostToken := hostToken })

/-- Concrete playback state used by closed witnesses and counterexamples. -/
def sampleState : RedisState :=
  { paused := false, currentTime := 25/2, playbackRate := 1, timestamp := 1000 }

/-- Two live clients of one session with empty outbound queues: the
concrete membership on which the nested broadcast loop is evaluated. -/
def twoClients : List ClientConn :=
  [ { connLive := true, sessionID := "s", isHost := true, send := [] },
    { connLive := true, sessionID := "s", isHost := false, send := [] } ]

/-- A registry holding one active server running at exactly its declared
capacity: observedLoad/capacity = 1.0. -/
def fullServer : StreamingServer :=
  { id := "s1", url := "http://a", capacity := 100, currentLoad := 100,
    status := "active", lastPing := 0 }

/-- An idle active server, used to witness selection. -/
def idleServer : StreamingServer :=
  { id := "s2", url := "http://b", capacity := 100, currentLoad := 0,
    status := "active", lastPing := 0 }

/-- A busy but not full active server. -/
def busyServer : StreamingServer :=
  { id := "s3", url := "http://c", capacity := 100, currentLoad := 90,
    status := "active", lastPing := 0 }

/-- An active server whose last heartbeat is recent relative to instant 100. -/
def freshServer : StreamingServer :=
  { id := "s4", url := "http://d", capacity := 100, currentLoad := 0,
    status := "active", lastPing := 100 }

/-- A persisted state entry with timestamp 2000, used by closed witnesses. -/
def persistedEntry : KVEntry :=
  { state := { paused := true, currentTime := 0, playbackRate := 1, timestamp := 2000 },
    expiresAt := 0 }

end VideoSync

namespace VideoSync

/-- C1 helper: an accepted write strictly increases the persisted timestamp,
so the persisted timestamp is non-decreasing along any update sequence. -/
theorem hostStep_ts_mono (now : Int) (e : KVEntry) (inc : RedisState) :
    ∃ e₂ : KVEntry, hostStep now (some e) inc = some e₂ ∧
      e.state.timestamp ≤ e₂.state.timestamp := by
  unfold hostStep handleClientMessage
  by_cases h : e.state.timestamp < inc.timestamp
  · exact ⟨{ state := inc, expiresAt := now + redisMsgExpiry }, by simp [h], le_of_lt h⟩
  · exact ⟨e, by simp [h], le_refl _⟩

/-- C1 helper: the persisted timestamp is non-decreasing across any sequence
of host updates. -/
theorem applyUpdates_ts_mono (now : Int) (e : KVEntry) (ups : List RedisState) :
    ∃ e₂ : KVEntry, applyUpdates now (some e) ups = some e₂ ∧
      e.state.timestamp ≤ e₂.state.timestamp := by
  induction ups generalizing e with
  | nil => exact ⟨e, rfl, le_refl _⟩
  | cons u rest ih =>
      obtain ⟨e₁, h₁, hle₁⟩ := hostStep_ts_mono now e u
      obtain ⟨e₂, h₂, hle₂⟩ := ih e₁
      refine ⟨e₂, ?_, le_trans hle₁ hle₂⟩
      simpa [applyUpdates, h₁] using h₂

/-- C1: for every session and every host-sent stateUpdate frame, the edge
node persists the frame state with TTL refresh and publishes it on the
session channel exactly when the frame timestamp is strictly greater than
the persisted timestamp; otherwise store and channel are untouched; and the
persisted timestamp is non-decreasing across any sequence of host updates,
so no later update with a smaller timestamp replaces an accepted one. -/
theorem hostUpdate_persist_iff_newer (now : Int) (q : List Frame) (e : KVEntry)
    (inc : RedisState) (ups : List RedisState) :
    ((handleClientMessage true q (some e) now (.stateUpdate (some inc)) =
        { queue := q, store := some { state := inc, expiresAt := now + redisMsgExpiry },
          published := [inc], direct := [] }) ↔ e.state.timestamp < inc.timestamp)
    ∧ (inc.timestamp ≤ e.state.timestamp →
        handleClientMessage true q (some e) now (.stateUpdate (some inc)) =
          { queue := q, store := some e, published := [], direct := [] })
    ∧ (∃ e₂, applyUpdates now (some e) ups = some e₂ ∧
        e.state.timestamp ≤ e₂.state.timestamp) := by
  refine ⟨⟨?_, ?_⟩, ?_, applyUpdates_ts_mono now e ups⟩
  · intro h
    by_contra hnot
    have hle : ¬ e.state.timestamp < inc.timestamp := hnot
    have h₂ : handleClientMessage true q (some e) now (.stateUpdate (some inc)) =
        { queue := q, store := some e, published := [], direct := [] } := by
      simp [handleClientMessage, hle]
    rw [h] at h₂
    have hpub := congrArg MsgEffect.published h₂
    simp at hpub
  · intro hlt
    simp [handleClientMessage, hlt]
  · intro hle
    simp [handleClientMessage, not_lt.mpr hle]

/-- Witness for C1 at a concrete rejected update: persisted timestamp 2000,
incoming timestamp 1000, store and channel untouched. -/
theorem hostUpdate_persist_iff_newer_witness :
    handleClientMessage true [] (some persistedEntry) 0 (.stateUpdate (some sampleState)) =
      { queue := [], store := some persistedEntry, published := [], direct := [] } :=
  (hostUpdate_persist_iff_newer 0 [] persistedEntry sampleState []).2.1 (by decide)

/-- C2: a stateUpdate frame from a non-host client changes nothing: the
persisted state is unchanged, nothing is published on the session channel
(hence no peer queue is touched by the pub/sub fan-out), nothing is
enqueued and nothing is written on the socket. -/
theorem nonHost_stateUpdate_noop (q : List Frame) (store : Option KVEntry)
    (now : Int) (st : Option RedisState) :
    handleClientMessage false q store now (.stateUpdate st) =
      { queue := q, store := store, published := [], direct := [] } := rfl

/-- C3 (evaluating the defect): on a session with two live clients with
empty queues, one accepted update run through the nested broadcast loop
leaves TWO copies of the frame on each client queue, not one. -/
theorem broadcastState_duplicate_delivery :
    liveCount twoClients = 2 ∧
    (broadcastState twoClients sampleState 5).map (fun c => c.send.length) = [2, 2] := by
  decide

/-- C10: a heartbeat frame is answered by a direct `conn.WriteJSON` from the
reader: the acknowledgement appears among the direct socket writes, the
bounded outbound queue is left exactly as it was (whatever its fill level,
including full), and nothing is enqueued for the writer task to serialize. -/
theorem heartbeat_direct_ack (isHost : Bool) (q : List Frame)
    (store : Option KVEntry) (now : Int) :
    handleClientMessage isHost q store now InMsg.heartbeat =
      { queue := q, store := store, published := [], direct := [Frame.heartbeatAck] } := rfl

/-- Selection helper: once a best server is held it is never dropped. -/
theorem selectGo_ne_none (l : List StreamingServer) (b : StreamingServer) (lowest : ℚ) :
    selectGo l (some b) lowest ≠ none := by
  induction l generalizing b lowest with
  | nil => simp [selectGo]
  | cons a rest ih =>
      simp only [selectGo]
      by_cases hg : a.status = "active" ∧ loadBelow a lowest
      · rw [if_pos hg]; exact ih a (loadRatio a)
      · rw [if_neg hg]; exact ih b lowest

/-- Selection helper: the selected server is the carried best or a registry
member. -/
theorem selectGo_mem (l : List StreamingServer) (best : Option StreamingServer)
    (lowest : ℚ) (s : StreamingServer) (h : selectGo l best lowest = some s) :
    best = some s ∨ s ∈ l := by
  induction l generalizing best lowest with
  | nil => exact Or.inl h
  | cons a rest ih =>
      simp only [selectGo] at h
      by_cases hg : a.status = "active" ∧ loadBelow a lowest
      · rw [if_pos hg] at h
        rcases ih (some a) (loadRatio a) h with h₁ | h₁
        · have : a = s := Option.some.inj h₁
          exact Or.inr (this ▸ List.mem_cons_self a rest)
        · exact Or.inr (List.mem_cons_of_mem a h₁)
      · rw [if_neg hg] at h
        rcases ih best lowest h with h₁ | h₁
        · exact Or.inl h₁
        · exact Or.inr (List.mem_cons_of_mem a h₁)

/-- Selection invariant: walking the registry with a current best whose
ratio equals the bound (and below one), the loop returns either nothing
(and then every active entry sits at or above the bound) or an active
server with ratio below one that is minimal among all active entries. -/
theorem selectGo_spec (l : List StreamingServer) (hcap : ∀ s ∈ l, 0 < s.capacity)
    (best : Option StreamingServer) (lowest : ℚ)
    (hbest : ∀ b, best = some b → b.status = "active" ∧ loadRatio b = lowest ∧ lowest < 1)
    (hle1 : lowest ≤ 1) :
    (selectGo l best lowest = none →
      ∀ s ∈ l, s.status = "active" → lowest ≤ loadRatio s)
    ∧ (∀ r, selectGo l best lowest = some r →
        r.status = "active" ∧ loadRatio r < 1 ∧ loadRatio r ≤ lowest ∧
        ∀ s ∈ l, s.status = "active" → loadRatio r ≤ loadRatio s) := by
  induction l generalizing best lowest with
  | nil =>
      refine ⟨fun _ s hs => absurd hs (List.not_mem_nil s), fun r hr => ?_⟩
      obtain ⟨h₁, h₂, h₃⟩ := hbest r hr
      exact ⟨h₁, h₂ ▸ h₃, le_of_eq h₂, fun s hs => absurd hs (List.not_mem_nil s)⟩
  | cons a rest ih =>
      have hcapa : 0 < a.capacity := hcap a (List.mem_cons_self a rest)
      have hcaprest : ∀ s ∈ rest, 0 < s.capacity :=
        fun s hs => hcap s (List.mem_cons_of_mem a hs)
      by_cases hg : a.status = "active" ∧ loadBelow a lowest
      · have hra : loadRatio a < lowest := by
          have hb := hg.2
          unfold loadBelow at hb
          rw [if_neg hcapa.ne'] at hb
          exact of_decide_eq_true hb
        have hlt1 : loadRatio a < 1 := lt_of_lt_of_le hra hle1
        have spec := ih hcaprest (some a) (loadRatio a)
          (fun b hb => by
            have : a = b := Option.some.inj hb
            exact this ▸ ⟨hg.1, rfl, hlt1⟩)
          (le_of_lt hlt1)
        constructor
        · intro hres
          rw [show selectGo (a :: rest) best lowest = selectGo rest (some a) (loadRatio a)
                from by simp only [selectGo]; rw [if_pos hg]] at hres
          exact absurd hres (selectGo_ne_none rest a (loadRatio a))
        · intro r hr
          rw [show selectGo (a :: rest) best lowest = selectGo rest (some a) (loadRatio a)
                from by simp only [selectGo]; rw [if_pos hg]] at hr
          obtain ⟨h₁, h₂, h₃, h₄⟩ := spec.2 r hr
          refine ⟨h₁, h₂, le_trans h₃ (le_of_lt hra), ?_⟩
          intro s hs hactive
          rcases List.mem_cons.mp hs with rfl | hs'
          · exact h₃
          · exact h₄ s hs' hactive
      · have spec := ih hcaprest best lowest hbest hle1
        have hstep : selectGo (a :: rest) best lowest = selectGo rest best lowest := by
          simp only [selectGo]; rw [if_neg hg]
        have hbound : a.status = "active" → lowest ≤ loadRatio a := by
          intro hactive
          have hnb : ¬ (loadBelow a lowest = true) := fun hb => hg ⟨hactive, hb⟩
          unfold loadBelow at hnb
          rw [if_neg hcapa.ne'] at hnb
          exact not_lt.mp (fun hlt => hnb (decide_eq_true hlt))
        constructor
        · intro hres s hs hactive
          rw [hstep] at hres
          rcases List.mem_cons.mp hs with rfl | hs'
          · exact hbound hactive
          · exact spec.1 hres s hs' hactive
        · intro r hr
          rw [hstep] at hr
          obtain ⟨h₁, h₂, h₃, h₄⟩ := spec.2 r hr
          refine ⟨h₁, h₂, h₃, ?_⟩
          intro s hs hactive
          rcases List.mem_cons.mp hs with rfl | hs'
          · exact le_trans h₃ (hbound hactive)
          · exact h₄ s hs' hactive

/-- Evaluation helper: the guard of the selection loop holds when the
capacity is nonzero and the ratio is below the bound. -/
theorem loadBelow_true_of (s : StreamingServer) (bound : ℚ) (h0 : s.capacity ≠ 0)
    (h : loadRatio s < bound) : loadBelow s bound = true := by
  rw [loadBelow, if_neg h0]
  exact decide_eq_true h

/-- Evaluation helper: the guard of the selection loop fails when the
capacity is nonzero and the ratio is not below the bound. -/
theorem loadBelow_false_of (s : StreamingServer) (bound : ℚ) (h0 : s.capacity ≠ 0)
    (h : ¬ loadRatio s < bound) : loadBelow s bound = false := by
  rw [loadBelow, if_neg h0]
  exact decide_eq_false h

/-- Evaluation helper: the full-capacity server fails the initial bound. -/
theorem fullServer_guard_false : ¬ (fullServer.status = "active" ∧ loadBelow fullServer 1) := by
  rintro ⟨-, hb⟩
  rw [loadBelow_false_of fullServer 1 (by norm_num [fullServer])
      (by norm_num [loadRatio, fullServer])] at hb
  cases hb

/-- C4 counterexample: a registry holding one ACTIVE server (running at
exactly its declared capacity, ratio 1.0) on which the selection function
returns nothing, against the claim that some server is returned whenever an
active server exists. -/
theorem getLeastLoadedServer_active_yet_none :
    fullServer.status = "active" ∧ getLeastLoadedServer [fullServer] = none := by
  refine ⟨rfl, ?_⟩
  show selectGo [fullServer] none 1 = none
  simp only [selectGo]
  rw [if_neg fullServer_guard_false]

/-- C4 amended: the selection function restricts to active servers and
returns an active server of minimal observedLoad/capacity among those with
ratio strictly below 1.0 (first such in iteration order); it returns null
exactly when every active server has ratio at least 1.0 — in particular an
active server at or above declared capacity is never returned, even when it
is the only active server. -/
theorem getLeastLoadedServer_min_below_one (l : List StreamingServer)
    (hcap : ∀ s ∈ l, 0 < s.capacity) :
    (getLeastLoadedServer l = none ↔ ∀ s ∈ l, s.status = "active" → 1 ≤ loadRatio s)
    ∧ ∀ r, getLeastLoadedServer l = some r →
        r.status = "active" ∧ loadRatio r < 1 ∧ r ∈ l ∧
        ∀ s ∈ l, s.status = "active" → loadRatio r ≤ loadRatio s := by
  have spec := selectGo_spec l hcap none 1 (fun b hb => by cases hb) (le_refl 1)
  have hmem : ∀ r, getLeastLoadedServer l = some r → r ∈ l := by
    intro r hr
    rcases selectGo_mem l none 1 r hr with h | h
    · cases h
    · exact h
  refine ⟨⟨fun h s hs hactive => spec.1 h s hs hactive, ?_⟩, ?_⟩
  · intro hall
    cases hres : getLeastLoadedServer l with
    | none => rfl
    | some r =>
        obtain ⟨h₁, h₂, _, _⟩ := spec.2 r hres
        exact absurd h₂ (not_lt.mpr (hall r (hmem r hres) h₁))
  · intro r hr
    obtain ⟨h₁, h₂, _, h₄⟩ := spec.2 r hr
    exact ⟨h₁, h₂, hmem r hr, h₄⟩

/-- Witness for C4 amended on a registry with a full and an idle active
server: the idle one is selected, active, below capacity, and minimal. -/
theorem getLeastLoadedServer_min_below_one_witness :
    idleServer.status = "active" ∧ loadRatio idleServer < 1 ∧
      idleServer ∈ [fullServer, idleServer] ∧
      ∀ s ∈ [fullServer, idleServer], s.status = "active" →
        loadRatio idleServer ≤ loadRatio s :=
  (getLeastLoadedServer_min_below_one [fullServer, idleServer] (by decide)).2
    idleServer (by
      show selectGo [fullServer, idleServer] none 1 = some idleServer
      simp only [selectGo]
      rw [if_neg fullServer_guard_false,
        if_pos ⟨rfl, loadBelow_true_of idleServer 1 (by norm_num [idleServer])
          (by norm_num [loadRatio, idleServer])⟩])

/-- C6: one sweep of the eviction task at instant `now` keeps exactly the
registry entries whose last ping is at most 60 seconds old, and any server
the selection function returns on the swept registry heartbeated within the
last 60 seconds — an evicted entry is never selected. -/
theorem stale_servers_evicted_never_selected (now : Int) (reg : List StreamingServer) :
    (∀ s, s ∈ cleanupInactiveServers now reg ↔ s ∈ reg ∧ now - s.lastPing ≤ 60)
    ∧ ∀ s, getLeastLoadedServer (cleanupInactiveServers now reg) = some s →
        now - s.lastPing ≤ 60 := by
  constructor
  · intro s
    simp [cleanupInactiveServers, List.mem_filter]
  · intro s hsel
    have hmem : s ∈ cleanupInactiveServers now reg := by
      rcases selectGo_mem _ none 1 s hsel with h | h
      · cases h
      · exact h
    have hkeep := (List.mem_filter.mp hmem).2
    simpa using hkeep

/-- Witness for C6: at instant 100 the sweep drops the server last seen at
instant 0 and keeps the one last seen at 100, which selection then returns;
its heartbeat age is within 60. -/
theorem stale_servers_evicted_never_selected_witness :
    (100 : Int) - freshServer.lastPing ≤ 60 :=
  (stale_servers_evicted_never_selected 100 [idleServer, freshServer]).2
    freshServer (by
      have hclean : cleanupInactiveServers 100 [idleServer, freshServer] = [freshServer] := by
        decide
      rw [hclean]
      show selectGo [freshServer] none 1 = some freshServer
      simp only [selectGo]
      rw [if_pos ⟨rfl, loadBelow_true_of freshServer 1 (by norm_num [freshServer])
        (by norm_num [loadRatio, freshServer])⟩])

/-- Broadcast helper: `n` inner passes of the try-send loop act on each
membership entry independently: a live client ends with `n` try-sends
folded over its own queue, a dead entry is untouched, and no other field of
any entry changes. -/
theorem enqueueAll_iterate (f : Frame) (n : ℕ) (cs : List ClientConn) :
    (enqueueAll f)^[n] cs =
      cs.map (fun c => if c.connLive then
        { c with send := (fun q => trySend q f)^[n] c.send } else c) := by
  induction n with
  | zero =>
      have h : ∀ c : ClientConn,
          (if c.connLive then
            { c with send := (fun q => trySend q f)^[0] c.send } else c) = c := by
        intro c
        cases c
        simp
      simp [h]
  | succ n ih =>
      rw [Function.iterate_succ_apply', ih, enqueueAll, List.map_map]
      refine congrArg (fun g => List.map g cs) (funext fun c => ?_)
      by_cases hc : c.connLive
      · simp [Function.comp, hc, Function.iterate_succ_apply']
      · simp [Function.comp, hc]

/-- C7: the outbound queue is a bounded FIFO of capacity 256: try-send onto
a full queue drops the new frame and leaves the queue unchanged, try-send
with room appends in FIFO order; and the broadcast routine changes nothing
but queues — every connection field (liveness included) survives, no
connection is closed, and the queue a client ends with is a function of its
own queue only, so one client dropping (full queue) cannot affect what any
other participant receives. -/
theorem outbound_queue_bounded_drop (cs : List ClientConn) (st : RedisState) (t : Int) :
    sendQueueCapacity = 256
    ∧ (∀ q f, ¬ q.length < sendQueueCapacity → trySend q f = q)
    ∧ (∀ q f, q.length < sendQueueCapacity → trySend q f = q ++ [f])
    ∧ broadcastState cs st t =
        cs.map (fun c => if c.connLive then
          { c with send := (fun q => trySend q (Frame.stateUpdate st t))^[liveCount cs] c.send }
          else c)
    ∧ (broadcastState cs st t).map (fun c => (c.connLive, c.sessionID, c.isHost)) =
        cs.map (fun c => (c.connLive, c.sessionID, c.isHost)) := by
  refine ⟨rfl, ?_, ?_, enqueueAll_iterate _ _ _, ?_⟩
  · intro q f h
    rw [trySend, if_neg h]
  · intro q f h
    rw [trySend, if_pos h]
  · rw [show broadcastState cs st t =
        (enqueueAll (Frame.stateUpdate st t))^[liveCount cs] cs from rfl,
      enqueueAll_iterate, List.map_map]
    refine congrArg (fun g => List.map g cs) (funext fun c => ?_)
    by_cases hc : c.connLive
    · simp [Function.comp, hc]
    · simp [Function.comp, hc]

set_option maxRecDepth 10000 in
/-- Witness for C7: a queue already holding 256 frames drops the new frame
unchanged; an empty queue receives it. -/
theorem outbound_queue_bounded_drop_witness :
    trySend (List.replicate 256 Frame.heartbeatAck) Frame.heartbeatAck =
      List.replicate 256 Frame.heartbeatAck
    ∧ trySend [] Frame.heartbeatAck = [Frame.heartbeatAck] :=
  ⟨(outbound_queue_bounded_drop [] sampleState 0).2.1 _ _
      (by simp [List.length_replicate, sendQueueCapacity]),
   (outbound_queue_bounded_drop [] sampleState 0).2.2.1 _ _ (by decide)⟩

/-- C5 counterexample: the WebSocket connect handler of the main server
accepts as host a supplied token that differs byte-for-byte from the stored
token (a trailing space), because both sides pass through
`strings.TrimSpace` before the comparison. -/
theorem wsIsHost_trims_whitespace :
    wsIsHost (some "abc") "abc " = true ∧ ("abc " : String) ≠ "abc" := by
  constructor
  · decide
  · decide

/-- C5 amended: the control-plane validate endpoint compares exactly —
isHost is true iff a non-empty token was supplied, the stored token was
readable, and the two are equal byte for byte; but the WebSocket connect
handler first trims leading and trailing whitespace from both tokens, so
there isHost is true iff the trimmed tokens are equal.  An unreadable
stored token yields isHost false on both paths. -/
theorem hostToken_compare_semantics (stored supplied : String) :
    (validateHostCheck (some stored) supplied = true ↔
      supplied ≠ "" ∧ stored = supplied)
    ∧ (wsIsHost (some stored) supplied = true ↔
      supplied ≠ "" ∧ trimSpace stored = trimSpace supplied)
    ∧ validateHostCheck none supplied = false
    ∧ wsIsHost none supplied = false := by
  refine ⟨?_, ?_, ?_, ?_⟩
  · by_cases h : supplied = "" <;> simp [validateHostCheck, h]
  · by_cases h : supplied = "" <;> simp [wsIsHost, h]
  · simp [validateHostCheck]
  · simp [wsIsHost]

/-- Witness for C5 amended at matching concrete tokens: both comparison
paths report host. -/
theorem hostToken_compare_semantics_witness :
    validateHostCheck (some "abc") "abc" = true ∧ wsIsHost (some "abc") "abc" = true :=
  ⟨(hostToken_compare_semantics "abc" "abc").1.mpr ⟨by decide, rfl⟩,
   (hostToken_compare_semantics "abc" "abc").2.1.mpr ⟨by decide, rfl⟩⟩

/-- C8 counterexample: the same existing session validated against two
registry states is handed two different streaming servers — the edge node
is chosen by the selection function at each validate call, not fixed at
creation — and the creation response carries only the session key and the
host token, no streaming URL. -/
theorem validateSession_selects_at_validation_time :
    validateSession true (some "tok") "" [busyServer] =
      ValidateResult.ok false "http://c"
    ∧ validateSession true (some "tok") "" [busyServer, idleServer] =
      ValidateResult.ok false "http://b"
    ∧ ("http://c" : String) ≠ "http://b"
    ∧ (createSessionControl "k" "t" "j" false false false []).2 =
      some { sessionKey := "k", hostToken := "t" } := by
  have hbusy : ∀ rest b, selectGo (busyServer :: rest) b 1 =
      selectGo rest (some busyServer) (loadRatio busyServer) := by
    intro rest b
    simp only [selectGo]
    rw [if_pos ⟨rfl, loadBelow_true_of busyServer 1 (by norm_num [busyServer])
      (by norm_num [loadRatio, busyServer])⟩]
  have h1 : getLeastLoadedServer [busyServer] = some busyServer := by
    show selectGo [busyServer] none 1 = some busyServer
    rw [hbusy]
    rfl
  have h2 : getLeastLoadedServer [busyServer, idleServer] = some idleServer := by
    show selectGo [busyServer, idleServer] none 1 = some idleServer
    rw [hbusy]
    simp only [selectGo]
    rw [if_pos ⟨rfl, loadBelow_true_of idleServer (loadRatio busyServer)
      (by norm_num [idleServer]) (by norm_num [loadRatio, idleServer, busyServer])⟩]
  refine ⟨?_, ?_, by decide, rfl⟩
  · simp [validateSession, h1, validateHostCheck]
    decide
  · simp [validateSession, h2, validateHostCheck]
    decide

/-- C8 amended: createSession on the control node returns only the session
key and the host token (it selects no edge node and stores no assignment);
the streaming URL a client sees comes from validateSession, which runs the
selection function on the registry as it stands at each validation call. -/
theorem createSession_returns_no_url (k t j : String) (store : Store)
    (stored : Option String) (supplied : String) (reg : List StreamingServer) :
    (createSessionControl k t j false false false store).2 =
      some { sessionKey := k, hostToken := t }
    ∧ (∀ srv, getLeastLoadedServer reg = some srv →
        validateSession true stored supplied reg =
          ValidateResult.ok (validateHostCheck stored supplied) (normalizeServerURL srv.url))
    ∧ (getLeastLoadedServer reg = none →
        validateSession true stored supplied reg = ValidateResult.noServers) := by
  refine ⟨rfl, ?_, ?_⟩
  · intro srv h
    simp [validateSession, h]
  · intro h
    simp [validateSession, h]

/-- Witness for C8 amended: with one idle active server the validate call
returns that server (normalized URL); with an empty registry it returns the
no-servers error. -/
theorem createSession_returns_no_url_witness :
    validateSession true none "" [idleServer] =
      ValidateResult.ok (validateHostCheck none "") (normalizeServerURL idleServer.url)
    ∧ validateSession true none "" [] = ValidateResult.noServers :=
  ⟨(createSession_returns_no_url "k" "t" "j" [] none "" [idleServer]).2.1 idleServer
    (by
      show selectGo [idleServer] none 1 = some idleServer
      simp only [selectGo]
      rw [if_pos ⟨rfl, loadBelow_true_of idleServer 1 (by norm_num [idleServer])
        (by norm_num [loadRatio, idleServer])⟩]),
   (createSession_returns_no_url "k" "t" "j" [] none "" []).2.2 rfl⟩

/-- C9 counterexample: with the session-record write succeeding and the
host-token write failing, createSession answers host_registration_failed
while the store still holds the session record key — a half-created
session is observable after an error. -/
theorem createSessionMain_error_leaves_session_key :
    (createSessionMain "s" "t" "j" false true []).2 =
      some CreateErr.hostRegistrationFailed
    ∧ hasKey (createSessionMain "s" "t" "j" false true []).1 "session:s" = true := by
  constructor
  · rfl
  · decide

/-- C9 amended: the two creation writes are sequential, not transactional:
a failing session-record write returns session_creation_failed leaving the
store untouched, but a failing host-token write returns
host_registration_failed with the session record already written; on
success both keys are present. -/
theorem createSessionMain_sequential_writes (k t j : String) (store : Store) (b : Bool) :
    createSessionMain k t j true b store = (store, some CreateErr.sessionCreationFailed)
    ∧ createSessionMain k t j false true store =
        (setEX store ("session:" ++ k) j, some CreateErr.hostRegistrationFailed)
    ∧ hasKey (createSessionMain k t j false true store).1 ("session:" ++ k) = true
    ∧ (createSessionMain k t j false false store).2 = none
    ∧ hasKey (createSessionMain k t j false false store).1
        ("session:" ++ k ++ ":host") = true
    ∧ hasKey (createSessionMain k t j false false store).1 ("session:" ++ k) = true := by
  refine ⟨rfl, rfl, ?_, rfl, ?_, ?_⟩
  · simp [createSessionMain, setEX, hasKey]
  · simp [createSessionMain, setEX, hasKey]
  · simp [createSessionMain, setEX, hasKey]

end VideoSync
